import Mathlib

/-!
Shallow embedding of the SAPI ingestion pipeline (run ledger, raw page store,
index upsert store, backfill worker) and proofs about its behaviour.

Sources embedded:
- src/pipeline/ledger.py   (SapiRunLedgerStore)
- src/persistence/stores/raw.py (SapiRawPagesStore)
- src/persistence/stores/indices.py (SapiIndicesStore)
- src/pipeline/worker.py   (SapiBackfillWorker.run_backfill)

Modelling conventions:
- Timestamps are natural numbers passed explicitly (the Python code calls
  datetime.now; the model threads a `now` parameter).
- The database tables are Lean lists of row structures; a SQL UPDATE with a
  WHERE on run_id is a List.map that rewrites matching rows; INSERT ...
  ON CONFLICT DO NOTHING is a guarded append; INSERT ... ON CONFLICT DO
  UPDATE is a guarded rewrite (one statement per row; chunking in
  _bulk_upsert only partitions the row list, preserving order).
- The HTTP client and the extraction collaborator are external per the spec;
  the worker model takes them as function parameters (fetch may fail, which
  models any exception escaping the fetch/persist loop).
-/

/-- Run lifecycle status strings of ledger.py (STATUS_STARTED etc.). -/
inductive Status where
  | started
  | running
  | completed
  | failed
deriving DecidableEq, Repr

/-- One row of the sapi_run_ledger table (tables.py, SapiRunLedger). -/
structure LedgerEntry where
  runId : String
  country : String
  catalogsBundle : String
  paramsFingerprint : String
  status : Status
  startedAt : Nat
  endedAt : Option Nat
  lastError : Option String
  cursorNext : Option String
  pagesProcessed : Nat
  itemsProcessed : Nat
deriving DecidableEq, Repr

/-- The ledger table: rows keyed by the primary key run_id. -/
abbrev Ledger : Type := List LedgerEntry

/-- Scope identity of a run (ledger.py, SapiRunScope). -/
structure SapiRunScope where
  country : String
  catalogsBundle : String
  paramsFingerprint : String
deriving DecidableEq, Repr

/-- SELECT by primary key: session.get(SapiRunLedger, run_id). First row
whose run_id matches (run_id is the primary key, so at most one exists). -/
def findEntry : Ledger → String → Option LedgerEntry
  | [], _ => none
  | e :: t, runId => if e.runId = runId then some e else findEntry t runId

/-- UPDATE sapi_run_ledger SET ... WHERE run_id = :run_id, applied row-wise. -/
def updateEntry (led : Ledger) (runId : String) (f : LedgerEntry → LedgerEntry) : Ledger :=
  led.map (fun e => if e.runId = runId then f e else e)

/-- The fresh row built by SapiRunLedgerStore.ensure_started before flush. -/
def freshEntry (runId : String) (scope : SapiRunScope) (now : Nat) : LedgerEntry :=
  { runId := runId
  , country := scope.country
  , catalogsBundle := scope.catalogsBundle
  , paramsFingerprint := scope.paramsFingerprint
  , status := Status.started
  , startedAt := now
  , endedAt := none
  , lastError := none
  , cursorNext := none
  , pagesProcessed := 0
  , itemsProcessed := 0 }

/-- ensure_started as used by the worker (no concurrent writer in this path):
get the row, otherwise insert a fresh STATUS_STARTED row. Returns the table
and the row the caller sees. -/
def ensureStartedDb (led : Ledger) (runId : String) (scope : SapiRunScope) (now : Nat) :
    Ledger × LedgerEntry :=
  match findEntry led runId with
  | some row => (led, row)
  | none => (led ++ [freshEntry runId scope now], freshEntry runId scope now)

/-- Result of ensure_started seen by its caller. -/
inductive EnsureOutcome where
  | returned (e : LedgerEntry)
  | raised
deriving DecidableEq, Repr

/-- ensure_started (ledger.py lines 121-169) with the creation race made
explicit. `atGet` is what session.get observes first; `conflictOnFlush`
says whether the flush of the fresh row hits an IntegrityError because a
concurrent transaction inserted the same run_id; `atReget` is what the
reload after rollback observes. The IntegrityError is re-raised only when
the reload still finds nothing. -/
def ensure_started (runId : String) (scope : SapiRunScope) (now : Nat)
    (atGet : Option LedgerEntry) (conflictOnFlush : Bool)
    (atReget : Option LedgerEntry) : EnsureOutcome :=
  match atGet with
  | some row => EnsureOutcome.returned row
  | none =>
    if conflictOnFlush then
      match atReget with
      | some existing => EnsureOutcome.returned existing
      | none => EnsureOutcome.raised
    else
      EnsureOutcome.returned (freshEntry runId scope now)

/-- get_cursor_next (ledger.py lines 175-184): none when the row is absent,
else the stored cursor_next. -/
def get_cursor_next (led : Ledger) (runId : String) : Option String :=
  match findEntry led runId with
  | none => none
  | some row => row.cursorNext

/-- set_running (ledger.py lines 186-197). Defined here because the ledger
offers it; note the worker never invokes it. -/
def set_running (led : Ledger) (runId : String) : Ledger :=
  updateEntry led runId (fun e => { e with status := Status.running, lastError := none })

/-- checkpoint_after_page (ledger.py lines 199-248): one UPDATE statement
that advances cursor_next and the two counters and, exactly when has_more
is the value False (not None), flips status to completed and stamps
ended_at. -/
def checkpoint_after_page (led : Ledger) (runId : String) (nextCursor : Option String)
    (hasMore : Option Bool) (itemsCount : Nat) (now : Nat) : Ledger :=
  let status := if hasMore = some false then Status.completed else Status.running
  let endedAt : Option Nat := if hasMore = some false then some now else none
  updateEntry led runId (fun e =>
    { e with status := status
           , endedAt := endedAt
           , lastError := none
           , cursorNext := nextCursor
           , pagesProcessed := e.pagesProcessed + 1
           , itemsProcessed := e.itemsProcessed + itemsCount })

/-- mark_failed (ledger.py lines 254-271). The worker calls it without an
explicit ended_at, so the current time is stamped. -/
def mark_failed (led : Ledger) (runId : String) (error : String) (now : Nat) : Ledger :=
  updateEntry led runId (fun e =>
    { e with status := Status.failed, endedAt := some now, lastError := some error })

/-! ## Raw page store (raw.py) -/

/-- Provider response shape consumed by the core (spec section 6):
shows, hasMore, nextCursor. `Item` is the raw show payload, left abstract
because extraction is an external collaborator. -/
structure Response (Item : Type) where
  shows : List Item
  hasMore : Option Bool
  nextCursor : Option String
deriving DecidableEq, Repr

/-- _normalize_cursor_used (raw.py lines 31-39): `cursor_used or ""`.
A missing cursor and the empty string both normalize to the sentinel "". -/
def _normalize_cursor_used (cursorUsed : Option String) : String :=
  cursorUsed.getD ""

/-- One row of sapi_raw_pages (tables.py, SapiRawPage). The content hash of
raw.py is observability only (never read back); the model stores the
payload itself. -/
structure RawPage (Item : Type) where
  runId : String
  cursorUsed : String
  fetchedAt : Nat
  hasMore : Option Bool
  nextCursor : Option String
  itemsCount : Nat
  responseJson : Response Item
deriving DecidableEq, Repr

/-- append_page (raw.py lines 69-155): INSERT ... ON CONFLICT (run_id,
cursor_used) DO NOTHING. Returns the new table and the `inserted` flag
(rowcount 1 on insert, 0 on conflict). -/
def append_page (table : List (RawPage Item)) (runId : String) (cursorUsed : Option String)
    (fetchedAt : Nat) (responseJson : Response Item) : List (RawPage Item) × Bool :=
  let cursorNorm := _normalize_cursor_used cursorUsed
  let row : RawPage Item :=
    { runId := runId
    , cursorUsed := cursorNorm
    , fetchedAt := fetchedAt
    , hasMore := responseJson.hasMore
    , nextCursor := responseJson.nextCursor
    , itemsCount := responseJson.shows.length
    , responseJson := responseJson }
  if table.any (fun p => p.runId == runId && p.cursorUsed == cursorNorm) then
    (table, false)
  else
    (table ++ [row], true)

/-- Number of stored raw rows carrying a given (run_id, normalized cursor) key. -/
def rawKeyCount (table : List (RawPage Item)) (runId cursorNorm : String) : Nat :=
  table.countP (fun p => p.runId == runId && p.cursorUsed == cursorNorm)

/-! ## Index records (models.py) and the index upsert store (indices.py) -/

/-- Locale (models.py); named SapiLocale here because Mathlib already has a
Locale. -/
structure SapiLocale where
  language : String
  region : Option String
deriving DecidableEq, Repr

/-- Subtitle (models.py). -/
structure SapiSubtitle where
  closedCaptions : Bool
  locale : SapiLocale
deriving DecidableEq, Repr

/-- showType literal of SapiTitleIndexRecord. -/
inductive ShowType where
  | movie
  | series
deriving DecidableEq, Repr

/-- SapiTitleIndexRecord (models.py); the ORM row of sapi_titles_index has
the same columns, so one structure serves as record and row. -/
structure TitleRecord where
  sapi_id : String
  imdb_id : Option String
  tmdb_id : Option String
  title : String
  original_title : Option String
  show_type : ShowType
  item_type : Option String
  release_year : Option String
  fetched_at : Nat
  last_seen_run_id : String
deriving DecidableEq, Repr

/-- SapiOfferIndexRecord (models.py) and the sapi_offers_index row. -/
structure OfferRecord where
  sapi_id : String
  country : String
  service_id : String
  service_name : Option String
  offer_type : String
  title_page_link : String
  watch_link : Option String
  quality : Option String
  audios : List SapiLocale
  subtitles : List SapiSubtitle
  available_since : Int
  expires_soon : Bool
  expires_on : Option Int
  fetched_at : Nat
  last_seen_run_id : String
deriving DecidableEq, Repr

/-- AssetKind (models.py / tables.py). -/
inductive AssetKind where
  | verticalPoster
  | verticalBackdrop
  | horizontalPoster
  | horizontalBackdrop
deriving DecidableEq, BEq, Repr

/-- SapiAssetIndexRecord (models.py) and the sapi_assets_index row. -/
structure AssetRecord where
  sapi_id : String
  asset_kind : AssetKind
  image_urls : List (String × String)
  fetched_at : Nat
  last_seen_run_id : String
deriving DecidableEq, Repr

/-- Python str.lower over the character list (kept structural so that it
evaluates inside the kernel). -/
def lowerString (s : String) : String :=
  String.mk (s.data.map Char.toLower)

/-- _quality_rank (indices.py lines 120-121):
`{"uhd": 3, "hd": 2, "sd": 1}.get((q or "").lower(), 0)`. -/
def _quality_rank (q : Option String) : Nat :=
  match lowerString (q.getD "") with
  | "uhd" => 3
  | "hd" => 2
  | "sd" => 1
  | _ => 0

/-- The offers upsert key (sapi_id, country, service_id, offer_type). -/
def offerKey (r : OfferRecord) : String × String × String × String :=
  (r.sapi_id, r.country, r.service_id, r.offer_type)

/-- Lookup in the `best` dict of _dedupe_offers (Python dict keyed by the
offer key, insertion ordered). -/
def bestLookup (best : List ((String × String × String × String) × OfferRecord))
    (k : String × String × String × String) : Option OfferRecord :=
  (best.find? (fun p => p.1 == k)).map (fun p => p.2)

/-- `best[key] = r` on an existing key: rewrite in place, keeping the dict
position of the key (Python dict update semantics). -/
def bestSet (best : List ((String × String × String × String) × OfferRecord))
    (k : String × String × String × String) (r : OfferRecord) :
    List ((String × String × String × String) × OfferRecord) :=
  best.map (fun p => if p.1 == k then (p.1, r) else p)

/-- One iteration of the loop in _dedupe_offers (indices.py lines 126-145).
Note the source checks the watch_link rule and the available_since rule
without first requiring a quality tie: each `if` only compares the stated
fields. `r.available_since or 0` is the identity on int fields (0 maps
to 0), so the comparison is on available_since directly. -/
def _dedupe_step (best : List ((String × String × String × String) × OfferRecord))
    (r : OfferRecord) : List ((String × String × String × String) × OfferRecord) :=
  let key := offerKey r
  match bestLookup best key with
  | none => best ++ [(key, r)]
  | some cur =>
    if _quality_rank r.quality > _quality_rank cur.quality then
      bestSet best key r
    else if r.watch_link.isSome && cur.watch_link.isNone then
      bestSet best key r
    else if r.available_since > cur.available_since then
      bestSet best key r
    else
      best

/-- _dedupe_offers (indices.py lines 123-147): fold the records through the
`best` dict, then `list(best.values())`. -/
def _dedupe_offers (records : List OfferRecord) : List OfferRecord :=
  (records.foldl _dedupe_step []).map (fun p => p.2)

/-- _bulk_upsert applied to one titles row: INSERT ... ON CONFLICT (sapi_id)
DO UPDATE SET every non-key column to the incoming (excluded) value. -/
def upsertTitleRow (t : List TitleRecord) (r : TitleRecord) : List TitleRecord :=
  if t.any (fun x => x.sapi_id == r.sapi_id) then
    t.map (fun x => if x.sapi_id == r.sapi_id then { r with sapi_id := x.sapi_id } else x)
  else
    t ++ [r]

/-- upsert_titles (indices.py lines 103-112): rows are upserted in order;
_bulk_upsert returns the number of input rows processed. -/
def upsert_titles (table : List TitleRecord) (records : List TitleRecord) :
    List TitleRecord × Nat :=
  (records.foldl upsertTitleRow table, records.length)

/-- _bulk_upsert applied to one offers row, conflict key
(sapi_id, country, service_id, offer_type). -/
def upsertOfferRow (t : List OfferRecord) (r : OfferRecord) : List OfferRecord :=
  if t.any (fun x => offerKey x == offerKey r) then
    t.map (fun x =>
      if offerKey x == offerKey r then
        { r with sapi_id := x.sapi_id, country := x.country
               , service_id := x.service_id, offer_type := x.offer_type }
      else x)
  else
    t ++ [r]

/-- upsert_offers (indices.py lines 114-156): intra-batch dedupe first, then
the bulk upsert; the count returned is the number of deduped rows. -/
def upsert_offers (table : List OfferRecord) (records : List OfferRecord) :
    List OfferRecord × Nat :=
  let deduped := _dedupe_offers records
  (deduped.foldl upsertOfferRow table, deduped.length)

/-- The assets upsert key (sapi_id, asset_kind). -/
def assetKey (r : AssetRecord) : String × AssetKind :=
  (r.sapi_id, r.asset_kind)

/-- _bulk_upsert applied to one assets row, conflict key (sapi_id, asset_kind). -/
def upsertAssetRow (t : List AssetRecord) (r : AssetRecord) : List AssetRecord :=
  if t.any (fun x => assetKey x == assetKey r) then
    t.map (fun x =>
      if assetKey x == assetKey r then
        { r with sapi_id := x.sapi_id, asset_kind := x.asset_kind }
      else x)
  else
    t ++ [r]

/-- upsert_assets (indices.py lines 158-167). -/
def upsert_assets (table : List AssetRecord) (records : List AssetRecord) :
    List AssetRecord × Nat :=
  (records.foldl upsertAssetRow table, records.length)

/-- Count of titles rows carrying a given sapi_id. -/
def countTitleKey (t : List TitleRecord) (k : String) : Nat :=
  t.countP (fun x => x.sapi_id == k)

/-- First titles row carrying a given sapi_id. -/
def findTitle (t : List TitleRecord) (k : String) : Option TitleRecord :=
  t.find? (fun x => x.sapi_id == k)

/-! ## Backfill worker (worker.py) -/

/-- BackfillOptions (worker.py lines 80-93). chunk_size only partitions the
upsert statements and does not change the resulting tables, so the model
carries it without consulting it. -/
structure BackfillOptions where
  maxPages : Option Nat
  chunkSize : Nat
deriving DecidableEq, Repr

/-- base_query_params as the worker inspects it: the optional `catalogs`
entry (none models both an absent key and a None value) plus the remaining
entries, which the worker forwards untouched. -/
structure BaseParams where
  catalogs : Option String
  extra : List (String × String)
deriving DecidableEq, Repr

/-- The query parameters handed to SapiClient.fetch_data (worker.py lines
172-189): country is forced from the scope; catalogs falls back to the
scope bundle when absent or empty (on a string value
_normalize_catalogs_param is the identity); the cursor key is present
exactly when the resume cursor is not null. -/
structure QueryParams where
  country : String
  catalogs : String
  cursor : Option String
  extra : List (String × String)
deriving DecidableEq, Repr

/-- Build the request parameters for one page (worker.py lines 172-189). -/
def buildQueryParams (scope : SapiRunScope) (base : BaseParams)
    (cursorUsed : Option String) : QueryParams :=
  { country := scope.country
  , catalogs :=
      match base.catalogs with
      | none => scope.catalogsBundle
      | some s => if s = "" then scope.catalogsBundle else s
  , cursor := cursorUsed
  , extra := base.extra }

/-- The extraction collaborator extract_show: raw item, fetched_at, run_id
to (title record, offer records, asset records). -/
abbrev ExtractFn (Item : Type) :=
  Item → Nat → String → TitleRecord × List OfferRecord × List AssetRecord

/-- The whole transactional store: ledger plus the three index tables plus
the raw pages, all behind one session. -/
structure PState (Item : Type) where
  ledger : Ledger
  rawPages : List (RawPage Item)
  titles : List TitleRecord
  offers : List OfferRecord
  assets : List AssetRecord
deriving DecidableEq, Repr

/-- The single page transaction of the worker (worker.py lines 203-241):
append the raw page, extract per show, bulk upsert each non-empty batch,
then checkpoint the ledger, all against one state snapshot. -/
def persistPage (extract : ExtractFn Item) (st : PState Item) (runId : String)
    (cursorUsed : Option String) (fetchedAt : Nat) (resp : Response Item)
    (now : Nat) : PState Item :=
  let raw2 := (append_page st.rawPages runId cursorUsed fetchedAt resp).1
  let extracted := resp.shows.map (fun s => extract s fetchedAt runId)
  let titles := extracted.map (fun x => x.1)
  let offers := (extracted.map (fun x => x.2.1)).flatten
  let assets := (extracted.map (fun x => x.2.2)).flatten
  let titlesTab := if titles.isEmpty then st.titles else (upsert_titles st.titles titles).1
  let offersTab := if offers.isEmpty then st.offers else (upsert_offers st.offers offers).1
  let assetsTab := if assets.isEmpty then st.assets else (upsert_assets st.assets assets).1
  let ledger2 :=
    checkpoint_after_page st.ledger runId resp.nextCursor resp.hasMore resp.shows.length now
  { ledger := ledger2, rawPages := raw2, titles := titlesTab
  , offers := offersTab, assets := assetsTab }

/-- What run_backfill gives its caller: the run_id on a clean stop, or the
re-raised exception after mark_failed ran in its own transaction. -/
inductive RunOutcome (Item : Type) where
  | ok (runId : String) (st : PState Item)
  | failed (err : String) (st : PState Item)
deriving DecidableEq, Repr

/-- One observed page fetch: the cursor sent and the persisted state at the
moment the HTTP call is issued (no transaction open). -/
structure FetchEvent (Item : Type) where
  cursorUsed : Option String
  stAtFetch : PState Item
deriving DecidableEq, Repr

/-- `opt.max_pages is not None and pages_done >= opt.max_pages`
(worker.py line 161). -/
def maxPagesReached (maxPages : Option Nat) (pagesDone : Nat) : Bool :=
  match maxPages with
  | some m => Nat.ble m pagesDone
  | none => false

/-- The fetch/persist loop of run_backfill (worker.py lines 160-266), with
explicit fuel (the Python loop has no intrinsic bound; a `none` outcome
models a run that is still looping after `fuel` iterations). Returns the
fetch trace alongside the outcome. On an exception (modelled by the fetch
returning an error) the ledger is marked failed in a separate transaction
against the state whose page transaction never ran, and the original
error propagates (worker.py lines 268-276). -/
def backfillLoop (fetch : QueryParams → Except String (Response Item))
    (extract : ExtractFn Item) (scope : SapiRunScope) (base : BaseParams)
    (opt : BackfillOptions) (runId : String) (now : Nat) :
    Nat → Nat → Option String → PState Item →
    List (FetchEvent Item) × Option (RunOutcome Item)
  | 0, _, _, _ => ([], none)
  | fuel + 1, pagesDone, cursorNext, st =>
    if maxPagesReached opt.maxPages pagesDone then
      ([], some (RunOutcome.ok runId st))
    else
      let cursorUsed := cursorNext
      let qp := buildQueryParams scope base cursorUsed
      match fetch qp with
      | Except.error e =>
        ([{ cursorUsed := cursorUsed, stAtFetch := st }],
         some (RunOutcome.failed e { st with ledger := mark_failed st.ledger runId e now }))
      | Except.ok resp =>
        let st2 := persistPage extract st runId cursorUsed now resp now
        if resp.hasMore = some false then
          ([{ cursorUsed := cursorUsed, stAtFetch := st }], some (RunOutcome.ok runId st2))
        else
          let rest := backfillLoop fetch extract scope base opt runId now
            fuel (pagesDone + 1) resp.nextCursor st2
          ({ cursorUsed := cursorUsed, stAtFetch := st } :: rest.1, rest.2)

/-- run_backfill (worker.py lines 113-278): the handshake transaction runs
ensure_started, the resume cursor is read outside a transaction, then the
loop runs. The caller passes run_id explicitly (the Python code generates
a fresh uuid when the caller omits it). -/
def run_backfill (fetch : QueryParams → Except String (Response Item))
    (extract : ExtractFn Item) (scope : SapiRunScope) (base : BaseParams)
    (opt : BackfillOptions) (runId : String) (now fuel : Nat) (st0 : PState Item) :
    List (FetchEvent Item) × Option (RunOutcome Item) :=
  let handshake := ensureStartedDb st0.ledger runId scope now
  let st1 : PState Item := { st0 with ledger := handshake.1 }
  let cursor0 := get_cursor_next st1.ledger runId
  backfillLoop fetch extract scope base opt runId now fuel 0 cursor0 st1

/-! ## Concrete fixtures used by counterexamples and witnesses -/

/-- The scope of the spec scenario (section 8). -/
def exScope : SapiRunScope :=
  { country := "de", catalogsBundle := "netflix,prime", paramsFingerprint := "f1" }

/-- Base query params with no catalogs override. -/
def exBase : BaseParams := { catalogs := none, extra := [] }

/-- A trivial extraction collaborator over numeric raw items: one title per
item, no offers, no assets. -/
def exExtract : ExtractFn Nat := fun i fa rid =>
  ({ sapi_id := Nat.repr i
   , imdb_id := none
   , tmdb_id := none
   , title := Nat.repr i
   , original_title := none
   , show_type := ShowType.movie
   , item_type := some "show"
   , release_year := none
   , fetched_at := fa
   , last_seen_run_id := rid }, [], [])

/-- Provider of the spec scenario: page 1 has two shows, hasMore true,
nextCursor c1; page 2 has one show, hasMore false. -/
def exFetchTwoPages : QueryParams → Except String (Response Nat) := fun qp =>
  match qp.cursor with
  | none => Except.ok { shows := [1, 2], hasMore := some true, nextCursor := some "c1" }
  | some c =>
    if c = "c1" then Except.ok { shows := [3], hasMore := some false, nextCursor := none }
    else Except.error "KeyError: unknown cursor"

/-- Provider whose first page omits hasMore (None) and still names a next
cursor; the page after that ends the run. -/
def exFetchNoneFlag : QueryParams → Except String (Response Nat) := fun qp =>
  match qp.cursor with
  | none => Except.ok { shows := [1], hasMore := none, nextCursor := some "c1" }
  | some c =>
    if c = "c1" then Except.ok { shows := [2], hasMore := some false, nextCursor := none }
    else Except.error "KeyError: unknown cursor"

/-- Provider whose transport always fails. -/
def exFetchFail : QueryParams → Except String (Response Nat) := fun _ =>
  Except.error "ConnectionError: boom"

/-- Empty initial store. -/
def exSt0 : PState Nat :=
  { ledger := [], rawPages := [], titles := [], offers := [], assets := [] }

/-- A ledger row in running state for checkpoint witnesses. -/
def exEntry : LedgerEntry :=
  { runId := "r1", country := "de", catalogsBundle := "netflix,prime"
  , paramsFingerprint := "f1", status := Status.running, startedAt := 1
  , endedAt := none, lastError := none, cursorNext := none
  , pagesProcessed := 0, itemsProcessed := 0 }

/-- Shared skeleton for offer fixtures (one upsert key). -/
def exOfferBase : OfferRecord :=
  { sapi_id := "s1", country := "de", service_id := "netflix"
  , service_name := none, offer_type := "subscription"
  , title_page_link := "https://x/t", watch_link := none, quality := none
  , audios := [], subtitles := [], available_since := 100
  , expires_soon := false, expires_on := none, fetched_at := 1
  , last_seen_run_id := "r1" }

/-- quality hd, no watch link. -/
def exOfferHdNoLink : OfferRecord :=
  { exOfferBase with quality := some "hd", watch_link := none }

/-- quality sd, with a watch link. -/
def exOfferSdWithLink : OfferRecord :=
  { exOfferBase with quality := some "sd", watch_link := some "https://x/w" }

/-- Fully tied pair: same key, same quality rank, same watch-link presence,
same available_since; they differ only in service_name. -/
def exOfferTieA : OfferRecord :=
  { exOfferBase with quality := some "hd", service_name := some "A" }

/-- Second element of the tied pair. -/
def exOfferTieB : OfferRecord :=
  { exOfferBase with quality := some "hd", service_name := some "B" }

/-- A title record for upsert-convergence witnesses. -/
def exTitleRec : TitleRecord :=
  { sapi_id := "t1", imdb_id := some "tt1", tmdb_id := none, title := "T"
  , original_title := none, show_type := ShowType.movie, item_type := some "show"
  , release_year := some "2001", fetched_at := 5, last_seen_run_id := "r9" }

/-- N successive single-record calls to upsert_titles (the shape of the
upsert-convergence property). -/
def upsertTitlesNTimes (t : List TitleRecord) (r : TitleRecord) : Nat → List TitleRecord
  | 0 => t
  | n + 1 => (upsert_titles (upsertTitlesNTimes t r n) [r]).1

/-! ## Helper lemmas -/

theorem findEntry_updateEntry_self (led : Ledger) (rid : String)
    (f : LedgerEntry → LedgerEntry) (hf : ∀ x, (f x).runId = x.runId) :
    findEntry (updateEntry led rid f) rid = (findEntry led rid).map f := by
  induction led with
  | nil => simp [findEntry, updateEntry]
  | cons e t ih =>
    simp only [updateEntry, List.map_cons] at ih ⊢
    by_cases h1 : e.runId = rid
    · simp [findEntry, h1, hf]
    · simp only [findEntry, h1, if_false, if_neg h1]
      exact ih

theorem findEntry_updateEntry_ne (led : Ledger) (rid : String)
    (f : LedgerEntry → LedgerEntry) (hf : ∀ x, (f x).runId = x.runId)
    (r : String) (hr : r ≠ rid) :
    findEntry (updateEntry led rid f) r = findEntry led r := by
  induction led with
  | nil => simp [findEntry, updateEntry]
  | cons e t ih =>
    simp only [updateEntry, List.map_cons] at ih ⊢
    by_cases h1 : e.runId = rid
    · have hr2 : rid ≠ r := fun hx => hr hx.symm
      have h2 : e.runId ≠ r := fun hx => hr (hx ▸ h1)
      have h3 : (f e).runId ≠ r := by rw [hf]; exact h2
      simp [findEntry, h1, h2, h3, hr2, ih]
    · by_cases h2 : e.runId = r
      · simp [findEntry, h1, h2, hr]
      · simp [findEntry, h1, h2, ih]

theorem findEntry_append_single (led : Ledger) (x : LedgerEntry) (r : String)
    (h : findEntry led r = none) :
    findEntry (led ++ [x]) r = if x.runId = r then some x else none := by
  induction led with
  | nil => simp [findEntry]
  | cons e t ih =>
    by_cases h1 : e.runId = r
    · simp [findEntry, h1] at h
    · simp only [findEntry, h1, if_false, if_neg h1, List.cons_append] at h ⊢
      exact ih h

/-! ## Claim theorems -/

/-- C1: for every run_id, next_cursor, has_more and items_count,
checkpoint_after_page sets cursor_next to next_cursor, adds exactly 1 to
pages_processed and exactly items_count to items_processed and, when
has_more is False, also sets status to completed and stamps a non-null
ended_at; the single UPDATE statement touches no other row. -/
theorem checkpoint_after_page_correct (led : Ledger) (rid : String)
    (nc : Option String) (hm : Option Bool) (n now : Nat) (e : LedgerEntry)
    (h : findEntry led rid = some e) :
    ∃ e', findEntry (checkpoint_after_page led rid nc hm n now) rid = some e' ∧
      e'.cursorNext = nc ∧
      e'.pagesProcessed = e.pagesProcessed + 1 ∧
      e'.itemsProcessed = e.itemsProcessed + n ∧
      (hm = some false → e'.status = Status.completed ∧ e'.endedAt = some now) ∧
      (hm ≠ some false → e'.status = Status.running ∧ e'.endedAt = none) ∧
      (∀ r, r ≠ rid →
        findEntry (checkpoint_after_page led rid nc hm n now) r = findEntry led r) := by
  refine ⟨{ e with
      status := if hm = some false then Status.completed else Status.running
    , endedAt := if hm = some false then some now else none
    , lastError := none
    , cursorNext := nc
    , pagesProcessed := e.pagesProcessed + 1
    , itemsProcessed := e.itemsProcessed + n }, ?_, rfl, rfl, rfl, ?_, ?_, ?_⟩
  · have hself := findEntry_updateEntry_self led rid
      (fun e0 => { e0 with
        status := if hm = some false then Status.completed else Status.running
      , endedAt := if hm = some false then some now else none
      , lastError := none
      , cursorNext := nc
      , pagesProcessed := e0.pagesProcessed + 1
      , itemsProcessed := e0.itemsProcessed + n }) (fun x => rfl)
    show findEntry (updateEntry led rid _) rid = _
    rw [hself, h]
    rfl
  · intro hfalse
    simp [hfalse]
  · intro hfalse
    simp [if_neg hfalse]
  · intro r hrne
    exact findEntry_updateEntry_ne led rid
      (fun e0 => { e0 with
        status := if hm = some false then Status.completed else Status.running
      , endedAt := if hm = some false then some now else none
      , lastError := none
      , cursorNext := nc
      , pagesProcessed := e0.pagesProcessed + 1
      , itemsProcessed := e0.itemsProcessed + n }) (fun x => rfl) r hrne

/-- C1 witness: the theorem applied to a concrete one-row ledger. -/
theorem checkpoint_after_page_correct_witness :
    ∃ e', findEntry (checkpoint_after_page [exEntry] "r1" (some "c1") (some false) 2 7) "r1"
        = some e' ∧
      e'.cursorNext = some "c1" ∧ e'.pagesProcessed = 1 ∧ e'.itemsProcessed = 2 ∧
      e'.status = Status.completed ∧ e'.endedAt = some 7 := by
  obtain ⟨e', h1, h2, h3, h4, h5, _h6, _h7⟩ :=
    checkpoint_after_page_correct [exEntry] "r1" (some "c1") (some false) 2 7 exEntry
      (by decide)
  exact ⟨e', h1, h2, by simpa [exEntry] using h3, by simpa [exEntry] using h4,
    (h5 rfl).1, (h5 rfl).2⟩

/-- C2: starting from a table with no row for (run_id, normalized cursor),
the first append_page inserts and returns true; a second call with the
same key (any cursor value normalizing alike, null included) leaves the
table exactly as the first call left it, raises nothing and returns
false, and exactly one row for the key is stored. -/
theorem append_page_idempotent {Item : Type} (table : List (RawPage Item))
    (rid : String) (cu cu2 : Option String) (fa1 fa2 : Nat)
    (r1 r2 : Response Item)
    (habs : table.any
      (fun p => p.runId == rid && p.cursorUsed == _normalize_cursor_used cu) = false)
    (hsame : _normalize_cursor_used cu2 = _normalize_cursor_used cu) :
    (append_page table rid cu fa1 r1).2 = true ∧
    (append_page (append_page table rid cu fa1 r1).1 rid cu2 fa2 r2).2 = false ∧
    (append_page (append_page table rid cu fa1 r1).1 rid cu2 fa2 r2).1
      = (append_page table rid cu fa1 r1).1 ∧
    rawKeyCount (append_page (append_page table rid cu fa1 r1).1 rid cu2 fa2 r2).1
      rid (_normalize_cursor_used cu) = 1 := by
  have hcount0 : table.countP
      (fun p => p.runId == rid && p.cursorUsed == _normalize_cursor_used cu) = 0 :=
    List.countP_eq_zero.mpr (List.any_eq_false.mp habs)
  have h1 : append_page table rid cu fa1 r1
      = (table ++ [RawPage.mk rid (_normalize_cursor_used cu) fa1 r1.hasMore
          r1.nextCursor r1.shows.length r1], true) := by
    simp [append_page, habs]
  rw [h1]
  have hany : ((table ++ [RawPage.mk rid (_normalize_cursor_used cu) fa1 r1.hasMore
      r1.nextCursor r1.shows.length r1]).any
      (fun p => p.runId == rid && p.cursorUsed == _normalize_cursor_used cu2)) = true := by
    simp [List.any_append, hsame]
  have h2 : append_page (table ++ [RawPage.mk rid (_normalize_cursor_used cu) fa1 r1.hasMore
      r1.nextCursor r1.shows.length r1]) rid cu2 fa2 r2
      = (table ++ [RawPage.mk rid (_normalize_cursor_used cu) fa1 r1.hasMore
          r1.nextCursor r1.shows.length r1], false) := by
    simp only [append_page]
    rw [if_pos hany]
  rw [h2]
  exact ⟨rfl, rfl, rfl, by simp [rawKeyCount, List.countP_append, hcount0]⟩

/-- C2 witness: a fresh table, a null cursor on both calls. -/
theorem append_page_idempotent_witness :
    (append_page ([] : List (RawPage Nat)) "r1" none 3
        { shows := [1, 2], hasMore := some true, nextCursor := some "c1" }).2 = true ∧
    (append_page (append_page ([] : List (RawPage Nat)) "r1" none 3
        { shows := [1, 2], hasMore := some true, nextCursor := some "c1" }).1 "r1" none 4
        { shows := [1, 2], hasMore := some true, nextCursor := some "c1" }).2 = false := by
  obtain ⟨w1, w2, _w3, _w4⟩ := append_page_idempotent ([] : List (RawPage Nat)) "r1" none none
    3 4 { shows := [1, 2], hasMore := some true, nextCursor := some "c1" }
    { shows := [1, 2], hasMore := some true, nextCursor := some "c1" } (by decide) (by decide)
  exact ⟨w1, w2⟩

theorem find?_map_pres {α : Type} (g : α → α) (p : α → Bool)
    (hp : ∀ x, p (g x) = p x) :
    ∀ t : List α, (t.map g).find? p = (t.find? p).map g := by
  intro t
  induction t with
  | nil => simp
  | cons e t ih =>
    by_cases h : p e = true
    · simp [List.find?_cons, hp, h]
    · have h2 : p e = false := by simpa using h
      simp [List.find?_cons, hp, h2, ih]

theorem countP_map_pres {α : Type} (g : α → α) (p : α → Bool)
    (hp : ∀ x, p (g x) = p x) :
    ∀ t : List α, (t.map g).countP p = t.countP p := by
  intro t
  induction t with
  | nil => simp
  | cons e t ih => simp [List.countP_cons, hp, ih]

/-- One DO-UPDATE upsert of a single title record against a table obeying
the primary-key invariant: afterwards exactly one row carries the key and
it equals the incoming record in every column. -/
theorem upsert_title_once (t : List TitleRecord) (r : TitleRecord)
    (hcount : countTitleKey t r.sapi_id ≤ 1) :
    countTitleKey (upsertTitleRow t r) r.sapi_id = 1 ∧
    findTitle (upsertTitleRow t r) r.sapi_id = some r := by
  have hp : ∀ x : TitleRecord,
      ((if x.sapi_id == r.sapi_id then { r with sapi_id := x.sapi_id } else x).sapi_id
        == r.sapi_id) = (x.sapi_id == r.sapi_id) := by
    intro x
    by_cases hx : x.sapi_id == r.sapi_id
    · simp [hx]
    · simp [hx]
  by_cases hany : t.any (fun x => x.sapi_id == r.sapi_id) = true
  · have hpos : 0 < t.countP (fun x => x.sapi_id == r.sapi_id) := by
      obtain ⟨x, hxmem, hxp⟩ := List.any_eq_true.mp hany
      exact List.countP_pos_iff.mpr ⟨x, hxmem, hxp⟩
    have hone : t.countP (fun x => x.sapi_id == r.sapi_id) = 1 :=
      Nat.le_antisymm hcount hpos
    have hfind : (t.find? (fun x => x.sapi_id == r.sapi_id)).isSome := by
      rw [List.find?_isSome]
      obtain ⟨x, hxmem, hxp⟩ := List.any_eq_true.mp hany
      exact ⟨x, hxmem, hxp⟩
    obtain ⟨x0, hx0⟩ := Option.isSome_iff_exists.mp hfind
    have hx0p := List.find?_some hx0
    have hx0eq : x0.sapi_id = r.sapi_id := by simpa using hx0p
    have hmapc := countP_map_pres
      (fun x : TitleRecord =>
        if x.sapi_id == r.sapi_id then { r with sapi_id := x.sapi_id } else x)
      (fun x : TitleRecord => x.sapi_id == r.sapi_id) hp t
    have hmapf := find?_map_pres
      (fun x : TitleRecord =>
        if x.sapi_id == r.sapi_id then { r with sapi_id := x.sapi_id } else x)
      (fun x : TitleRecord => x.sapi_id == r.sapi_id) hp t
    constructor
    · unfold countTitleKey upsertTitleRow
      rw [if_pos hany, hmapc]
      exact hone
    · unfold findTitle upsertTitleRow
      rw [if_pos hany, hmapf, hx0]
      simp [hx0p, hx0eq]
  · have hanyf : t.any (fun x => x.sapi_id == r.sapi_id) = false := by
      simpa using hany
    have hallf : ∀ x ∈ t, ¬((fun x : TitleRecord => x.sapi_id == r.sapi_id) x = true) :=
      List.any_eq_false.mp hanyf
    constructor
    · simp only [countTitleKey, upsertTitleRow, hanyf]
      simp [List.countP_append, List.countP_eq_zero.mpr hallf]
    · simp only [findTitle, upsertTitleRow, hanyf]
      simp [List.find?_append, List.find?_eq_none.mpr hallf]

/-- C3: upserting the same title record N >= 1 times (key unchanged) leaves
exactly one stored row for that sapi_id, and the stored row equals the
incoming record in every column, last_seen_run_id included (each conflict
overwrites all non-key columns with the incoming values). -/
theorem upsert_titles_convergence (t0 : List TitleRecord) (r : TitleRecord) (N : Nat)
    (hN : 1 ≤ N) (hcount : countTitleKey t0 r.sapi_id ≤ 1) :
    countTitleKey (upsertTitlesNTimes t0 r N) r.sapi_id = 1 ∧
    findTitle (upsertTitlesNTimes t0 r N) r.sapi_id = some r ∧
    (∀ row, findTitle (upsertTitlesNTimes t0 r N) r.sapi_id = some row →
      row.last_seen_run_id = r.last_seen_run_id) := by
  induction N with
  | zero => exact absurd hN (by simp)
  | succ n ih =>
    by_cases hn : n = 0
    · subst hn
      have hstep : upsertTitlesNTimes t0 r 1 = upsertTitleRow t0 r := by
        simp [upsertTitlesNTimes, upsert_titles]
      obtain ⟨hc, hf⟩ := upsert_title_once t0 r hcount
      rw [hstep]
      exact ⟨hc, hf, fun row hrow => by rw [hf] at hrow; cases hrow; rfl⟩
    · have hn1 : 1 ≤ n := Nat.one_le_iff_ne_zero.mpr hn
      obtain ⟨ihc, ihf, _⟩ := ih hn1
      have hstep : upsertTitlesNTimes t0 r (n + 1)
          = upsertTitleRow (upsertTitlesNTimes t0 r n) r := by
        simp [upsertTitlesNTimes, upsert_titles]
      obtain ⟨hc, hf⟩ := upsert_title_once (upsertTitlesNTimes t0 r n) r (by rw [ihc])
      rw [hstep]
      exact ⟨hc, hf, fun row hrow => by rw [hf] at hrow; cases hrow; rfl⟩

/-- C3 witness: three upserts of the same record into an empty table. -/
theorem upsert_titles_convergence_witness :
    countTitleKey (upsertTitlesNTimes [] exTitleRec 3) "t1" = 1 ∧
    findTitle (upsertTitlesNTimes [] exTitleRec 3) "t1" = some exTitleRec := by
  obtain ⟨hc, hf, _⟩ := upsert_titles_convergence [] exTitleRec 3 (by decide) (by decide)
  exact ⟨hc, hf⟩

/-- C4 evaluated at the failing input: with the hd offer (no watch link)
first and the sd offer (with watch link) second, _dedupe_offers resolves
the pair to the sd offer, because the source applies the watch-link rule
whenever the incoming record does not have strictly higher quality rank,
with no quality-tie guard. In the reverse order the hd offer survives, so
the outcome is order dependent, against the claim that the hd offer wins
in either order. -/
theorem dedupe_offers_link_beats_quality_at_input :
    _dedupe_offers [exOfferHdNoLink, exOfferSdWithLink] = [exOfferSdWithLink] ∧
    _dedupe_offers [exOfferSdWithLink, exOfferHdNoLink] = [exOfferHdNoLink] ∧
    exOfferSdWithLink.quality = some "sd" ∧
    exOfferHdNoLink.quality = some "hd" ∧
    offerKey exOfferSdWithLink = offerKey exOfferHdNoLink := by decide

/-- C5 counterexample: two offers that no resolution rule distinguishes
(same key, equal quality rank, equal watch-link presence, equal
available_since, differing only in service_name). The deduplication keeps
the EARLIER one in input order, not the later one the claim names. -/
theorem dedupe_offers_tie_keeps_earlier_cex :
    _dedupe_offers [exOfferTieA, exOfferTieB] = [exOfferTieA] ∧
    exOfferTieA ≠ exOfferTieB := by decide

/-- C5 amended: when no rule distinguishes two same-key offers (equal
quality rank, equal watch-link presence, equal available_since), the
EARLIER one in input order is kept (first-write-wins fallback), and the
batch still collapses to exactly one record for the key. -/
theorem dedupe_offers_tie_first_write_wins (a b : OfferRecord)
    (hkey : offerKey b = offerKey a)
    (hq : _quality_rank b.quality = _quality_rank a.quality)
    (hw : b.watch_link.isSome = a.watch_link.isSome)
    (hav : b.available_since = a.available_since) :
    _dedupe_offers [a, b] = [a] := by
  have hstep1 : _dedupe_step [] a = [(offerKey a, a)] := by
    simp [_dedupe_step, bestLookup]
  have hlook : bestLookup [(offerKey a, a)] (offerKey b) = some a := by
    simp [bestLookup, hkey]
  have hnq : ¬(_quality_rank b.quality > _quality_rank a.quality) := by
    rw [hq]
    exact lt_irrefl _
  have hnw : (b.watch_link.isSome && a.watch_link.isNone) = false := by
    rw [hw]
    cases a.watch_link <;> simp
  have hna : ¬(b.available_since > a.available_since) := by
    rw [hav]
    exact lt_irrefl _
  have hstep2 : _dedupe_step [(offerKey a, a)] b = [(offerKey a, a)] := by
    rw [_dedupe_step, hlook]
    simp only [if_neg hnq, hnw, Bool.false_eq_true, if_false, if_neg hna]
  simp [_dedupe_offers, hstep1, hstep2]

/-- C5 amended witness: the tied fixture pair. -/
theorem dedupe_offers_tie_first_write_wins_witness :
    _dedupe_offers [exOfferTieA, exOfferTieB] = [exOfferTieA] :=
  dedupe_offers_tie_first_write_wins exOfferTieA exOfferTieB rfl rfl rfl rfl

/-- C8: ensure_started returns the existing row unchanged when run_id is
known; otherwise it inserts a fresh row in started state with null cursor
and zero counters; when a concurrent creation race makes the flush hit a
uniqueness violation, the loser reloads and returns the winner row, and
the violation surfaces if and only if the row is still absent after the
reload. -/
theorem ensure_started_contract (runId : String) (scope : SapiRunScope) (now : Nat)
    (atGet : Option LedgerEntry) (conflictOnFlush : Bool) (atReget : Option LedgerEntry) :
    (∀ e, atGet = some e →
      ensure_started runId scope now atGet conflictOnFlush atReget
        = EnsureOutcome.returned e) ∧
    (atGet = none → conflictOnFlush = false →
      ensure_started runId scope now atGet conflictOnFlush atReget
        = EnsureOutcome.returned (freshEntry runId scope now) ∧
      (freshEntry runId scope now).status = Status.started ∧
      (freshEntry runId scope now).cursorNext = none ∧
      (freshEntry runId scope now).pagesProcessed = 0 ∧
      (freshEntry runId scope now).itemsProcessed = 0) ∧
    (∀ w, atGet = none → conflictOnFlush = true → atReget = some w →
      ensure_started runId scope now atGet conflictOnFlush atReget
        = EnsureOutcome.returned w) ∧
    (ensure_started runId scope now atGet conflictOnFlush atReget = EnsureOutcome.raised ↔
      (atGet = none ∧ conflictOnFlush = true ∧ atReget = none)) := by
  cases atGet <;> cases conflictOnFlush <;> cases atReget <;>
    simp [ensure_started, freshEntry]

/-- C8 witness: the race path at concrete inputs, the loser returning the
winner row. -/
theorem ensure_started_contract_witness :
    ensure_started "r1" exScope 5 none true (some exEntry)
      = EnsureOutcome.returned exEntry :=
  (ensure_started_contract "r1" exScope 5 none true (some exEntry)).2.2.1 exEntry rfl rfl rfl

/-- C9 counterexample: a concrete fresh run (two-page provider, no
max_pages). At the moment the worker issues the first fetch of the run,
the persisted ledger status is still started, not running: the worker
never calls set_running, and the status first changes only inside the
first page checkpoint. -/
theorem run_backfill_first_fetch_not_running_cex :
    ((run_backfill exFetchTwoPages exExtract exScope exBase
        { maxPages := none, chunkSize := 1000 } "r1" 7 5 exSt0).1.head?.map
      (fun ev => (findEntry ev.stAtFetch.ledger "r1").map (fun e => e.status)))
      = some (some Status.started) ∧
    Status.started ≠ Status.running := by decide

/-- C9 amended: for a fresh run_id, whenever the loop performs its first
fetch at all (positive fuel, max_pages not zero), the persisted status at
that first fetch is started; the transition away from started happens only
in the checkpoint after the page, never before the first fetch. -/
theorem run_backfill_first_fetch_status_started {Item : Type}
    (fetch : QueryParams → Except String (Response Item)) (extract : ExtractFn Item)
    (scope : SapiRunScope) (base : BaseParams) (opt : BackfillOptions)
    (runId : String) (now fuel : Nat) (st0 : PState Item)
    (hfresh : findEntry st0.ledger runId = none)
    (hmp : ∀ m, opt.maxPages = some m → 0 < m)
    (hfuel : 1 ≤ fuel) :
    ((run_backfill fetch extract scope base opt runId now fuel st0).1.head?.map
      (fun ev => (findEntry ev.stAtFetch.ledger runId).map (fun e => e.status)))
      = some (some Status.started) := by
  obtain ⟨f, rfl⟩ : ∃ f, fuel = f + 1 := ⟨fuel - 1, by omega⟩
  have hmpr : maxPagesReached opt.maxPages 0 = false := by
    cases hopt : opt.maxPages with
    | none => rfl
    | some m =>
      have hm := hmp m hopt
      cases m with
      | zero => exact absurd hm (lt_irrefl 0)
      | succ k => rfl
  have hentry : findEntry (st0.ledger ++ [freshEntry runId scope now]) runId
      = some (freshEntry runId scope now) := by
    rw [findEntry_append_single st0.ledger _ _ hfresh]
    simp [freshEntry]
  unfold run_backfill
  simp only [ensureStartedDb, hfresh]
  simp only [backfillLoop, hmpr, Bool.false_eq_true, if_false]
  cases hfq : fetch (buildQueryParams scope base
      (get_cursor_next ({ st0 with ledger := st0.ledger ++ [freshEntry runId scope now]
        } : PState Item).ledger runId)) with
  | error e =>
    simp only [List.head?_cons, Option.map_some]
    simp
    exact ⟨_, hentry, rfl⟩
  | ok resp =>
    by_cases hmore : resp.hasMore = some false
    · simp [hmore]
      exact ⟨_, hentry, rfl⟩
    · simp [hmore]
      exact ⟨_, hentry, rfl⟩

/-- C9 amended witness: a concrete fresh run with max_pages 1. -/
theorem run_backfill_first_fetch_status_started_witness :
    ((run_backfill exFetchTwoPages exExtract exScope exBase
        { maxPages := some 1, chunkSize := 1000 } "r2" 7 4 exSt0).1.head?.map
      (fun ev => (findEntry ev.stAtFetch.ledger "r2").map (fun e => e.status)))
      = some (some Status.started) :=
  run_backfill_first_fetch_status_started exFetchTwoPages exExtract exScope exBase
    { maxPages := some 1, chunkSize := 1000 } "r2" 7 4 exSt0 (by decide)
    (fun m hm => by cases hm; decide) (by decide)

/-- C10: a checkpoint whose has_more is None (the provider omitted hasMore)
sets status running and leaves ended_at null, and the worker loop does not
stop on such a page: with no max_pages limit, the trace goes on to a
second fetch at the page's nextCursor. Only has_more identically False
completes the run or breaks the loop. -/
theorem checkpoint_has_more_none_keeps_running {Item : Type}
    (led : Ledger) (rid : String) (nc : Option String) (n now : Nat) (e : LedgerEntry)
    (hled : findEntry led rid = some e)
    (fetch : QueryParams → Except String (Response Item)) (extract : ExtractFn Item)
    (scope : SapiRunScope) (base : BaseParams) (cs : Nat) (wrid : String) (wnow : Nat)
    (k pd : Nat) (c : Option String) (st : PState Item) (p : Response Item)
    (hfetch : fetch (buildQueryParams scope base c) = Except.ok p)
    (hnone : p.hasMore = none) :
    (∃ e', findEntry (checkpoint_after_page led rid nc none n now) rid = some e' ∧
      e'.status = Status.running ∧ e'.endedAt = none) ∧
    (∃ rest, (backfillLoop fetch extract scope base { maxPages := none, chunkSize := cs }
        wrid wnow (k + 2) pd c st).1
      = { cursorUsed := c, stAtFetch := st } ::
        ({ cursorUsed := p.nextCursor
         , stAtFetch := persistPage extract st wrid c wnow p wnow } : FetchEvent Item)
        :: rest) := by
  constructor
  · have hself := findEntry_updateEntry_self led rid
      (fun e0 => { e0 with
        status := if (none : Option Bool) = some false then Status.completed else Status.running
      , endedAt := if (none : Option Bool) = some false then some now else none
      , lastError := none
      , cursorNext := nc
      , pagesProcessed := e0.pagesProcessed + 1
      , itemsProcessed := e0.itemsProcessed + n }) (fun x => rfl)
    refine ⟨{ e with
        status := Status.running
      , endedAt := none
      , lastError := none
      , cursorNext := nc
      , pagesProcessed := e.pagesProcessed + 1
      , itemsProcessed := e.itemsProcessed + n }, ?_, rfl, rfl⟩
    show findEntry (updateEntry led rid _) rid = _
    rw [hself, hled]
    rfl
  · simp only [backfillLoop, maxPagesReached, Bool.false_eq_true, if_false, hfetch, hnone]
    simp only [hnone, reduceCtorEq, if_false, if_neg]
    cases hfq2 : fetch (buildQueryParams scope base p.nextCursor) with
    | error e2 => exact ⟨[], by simp [hfq2]⟩
    | ok resp2 =>
      by_cases hmore2 : resp2.hasMore = some false
      · exact ⟨[], by simp [hfq2, hmore2]⟩
      · exact ⟨(backfillLoop fetch extract scope base { maxPages := none, chunkSize := cs }
          wrid wnow k (pd + 1 + 1) resp2.nextCursor
          (persistPage extract (persistPage extract st wrid c wnow p wnow)
            wrid p.nextCursor wnow resp2 wnow)).1, by simp [hfq2, hmore2]⟩

/-- C10 witness: concrete checkpoint with has_more None, and a concrete run
whose first page omits hasMore yet is followed by a second fetch at c1. -/
theorem checkpoint_has_more_none_keeps_running_witness :
    (∃ e', findEntry (checkpoint_after_page [exEntry] "r1" (some "c1") none 1 9) "r1"
        = some e' ∧ e'.status = Status.running ∧ e'.endedAt = none) ∧
    (((backfillLoop exFetchNoneFlag exExtract exScope exBase
        { maxPages := none, chunkSize := 1000 } "r1" 9 (2 + 2) 0 none exSt0).1.map
      (fun ev => ev.cursorUsed)).take 2 = [none, some "c1"]) := by
  obtain ⟨h1, h2⟩ := checkpoint_has_more_none_keeps_running [exEntry] "r1" (some "c1") 1 9
    exEntry (by decide) exFetchNoneFlag exExtract exScope exBase 1000 "r1" 9 2 0 none exSt0
    { shows := [1], hasMore := none, nextCursor := some "c1" } rfl rfl
  obtain ⟨rest, hrest⟩ := h2
  refine ⟨h1, ?_⟩
  rw [hrest]
  simp

theorem findEntry_checkpoint_isSome (led : Ledger) (rid : String) (nc : Option String)
    (hm : Option Bool) (n now : Nat) :
    (findEntry (checkpoint_after_page led rid nc hm n now) rid).isSome
      = (findEntry led rid).isSome := by
  have hself := findEntry_updateEntry_self led rid
    (fun e0 => { e0 with
      status := if hm = some false then Status.completed else Status.running
    , endedAt := if hm = some false then some now else none
    , lastError := none
    , cursorNext := nc
    , pagesProcessed := e0.pagesProcessed + 1
    , itemsProcessed := e0.itemsProcessed + n }) (fun x => rfl)
    
  show (findEntry (updateEntry led rid _) rid).isSome = _
  rw [hself]
  cases findEntry led rid <;> rfl

theorem backfillLoop_outcome_aux {Item : Type}
    (fetch : QueryParams → Except String (Response Item)) (extract : ExtractFn Item)
    (scope : SapiRunScope) (base : BaseParams) (opt : BackfillOptions)
    (runId : String) (now : Nat) :
    ∀ fuel pd c (st : PState Item), (findEntry st.ledger runId).isSome = true →
      (∀ rid2 st', (backfillLoop fetch extract scope base opt runId now fuel pd c st).2
          = some (RunOutcome.ok rid2 st') → rid2 = runId) ∧
      (∀ err st', (backfillLoop fetch extract scope base opt runId now fuel pd c st).2
          = some (RunOutcome.failed err st') →
        ∃ stPre : PState Item,
          st' = { stPre with ledger := mark_failed stPre.ledger runId err now } ∧
          (findEntry stPre.ledger runId).isSome = true) := by
  intro fuel
  induction fuel with
  | zero =>
    intro pd c st hpres
    constructor
    · intro rid2 st' h
      simp [backfillLoop] at h
    · intro err st' h
      simp [backfillLoop] at h
  | succ f ih =>
    intro pd c st hpres
    by_cases hmax : maxPagesReached opt.maxPages pd = true
    · constructor
      · intro rid2 st' h
        simp [backfillLoop, hmax] at h
        exact h.1.symm
      · intro err st' h
        simp [backfillLoop, hmax] at h
    · have hmaxf : maxPagesReached opt.maxPages pd = false := by simpa using hmax
      cases hfq : fetch (buildQueryParams scope base c) with
      | error e =>
        constructor
        · intro rid2 st' h
          simp [backfillLoop, hmaxf, hfq] at h
        · intro err st' h
          simp [backfillLoop, hmaxf, hfq] at h
          exact ⟨st, h.2.symm.trans (by rw [h.1]), hpres⟩
      | ok resp =>
        have hpres2 : (findEntry (persistPage extract st runId c now resp now).ledger
            runId).isSome = true := by
          show (findEntry (checkpoint_after_page st.ledger runId resp.nextCursor
            resp.hasMore resp.shows.length now) runId).isSome = true
          rw [findEntry_checkpoint_isSome]
          exact hpres
        by_cases hmore : resp.hasMore = some false
        · constructor
          · intro rid2 st' h
            simp [backfillLoop, hmaxf, hfq, hmore] at h
            exact h.1.symm
          · intro err st' h
            simp [backfillLoop, hmaxf, hfq, hmore] at h
        · obtain ⟨ihok, ihfail⟩ := ih (pd + 1) resp.nextCursor
            (persistPage extract st runId c now resp now) hpres2
          constructor
          · intro rid2 st' h
            apply ihok rid2 st'
            simpa [backfillLoop, hmaxf, hfq, hmore] using h
          · intro err st' h
            apply ihfail err st'
            simpa [backfillLoop, hmaxf, hfq, hmore] using h

/-- C7: run_backfill either hands back the run_id (clean stop at max_pages
or completion), or the error propagates and the final state is exactly a
pre-page state (the failing page transaction left no writes) with
mark_failed applied in its own transaction: the run row is failed,
last_error carries the error summary, ended_at is stamped, and the
original error is the one re-raised, never swallowed. -/
theorem run_backfill_error_contract {Item : Type}
    (fetch : QueryParams → Except String (Response Item)) (extract : ExtractFn Item)
    (scope : SapiRunScope) (base : BaseParams) (opt : BackfillOptions)
    (runId : String) (now fuel : Nat) (st0 : PState Item) :
    (∀ rid2 st, (run_backfill fetch extract scope base opt runId now fuel st0).2
        = some (RunOutcome.ok rid2 st) → rid2 = runId) ∧
    (∀ err st, (run_backfill fetch extract scope base opt runId now fuel st0).2
        = some (RunOutcome.failed err st) →
      ∃ (stPre : PState Item) (e' : LedgerEntry),
        st = { stPre with ledger := mark_failed stPre.ledger runId err now } ∧
        findEntry st.ledger runId = some e' ∧ e'.status = Status.failed ∧
        e'.lastError = some err ∧ e'.endedAt = some now) := by
  have hpres1 : (findEntry (ensureStartedDb st0.ledger runId scope now).1 runId).isSome
      = true := by
    unfold ensureStartedDb
    cases hfind : findEntry st0.ledger runId with
    | some row => simp [hfind]
    | none =>
      simp only
      rw [findEntry_append_single st0.ledger _ _ hfind]
      simp [freshEntry]
  constructor
  · intro rid2 st h
    simp only [run_backfill] at h
    exact (backfillLoop_outcome_aux fetch extract scope base opt runId now fuel 0
      (get_cursor_next (ensureStartedDb st0.ledger runId scope now).1 runId)
      { st0 with ledger := (ensureStartedDb st0.ledger runId scope now).1 }
      hpres1).1 rid2 st h
  · intro err st h
    simp only [run_backfill] at h
    obtain ⟨stPre, hEq, hPre⟩ := (backfillLoop_outcome_aux fetch extract scope base opt
      runId now fuel 0
      (get_cursor_next (ensureStartedDb st0.ledger runId scope now).1 runId)
      { st0 with ledger := (ensureStartedDb st0.ledger runId scope now).1 }
      hpres1).2 err st h
    obtain ⟨e0, he0⟩ := Option.isSome_iff_exists.mp hPre
    have hml := findEntry_updateEntry_self stPre.ledger runId
      (fun e1 => { e1 with
        status := Status.failed, endedAt := some now, lastError := some err })
      (fun x => rfl)
    refine ⟨stPre,
      { e0 with status := Status.failed, endedAt := some now, lastError := some err },
      hEq, ?_, rfl, rfl, rfl⟩
    rw [hEq]
    show findEntry (updateEntry stPre.ledger runId _) runId = _
    rw [hml, he0]
    rfl

/-- C7 witness: a transport that always fails; the caller sees the failed
outcome and the failed, error-carrying ledger row. -/
theorem run_backfill_error_contract_witness :
    ∃ (st : PState Nat) (err : String),
      (run_backfill exFetchFail exExtract exScope exBase
        { maxPages := none, chunkSize := 1000 } "r1" 5 3 exSt0).2
        = some (RunOutcome.failed err st) ∧
      ∃ (stPre : PState Nat) (e' : LedgerEntry),
        st = { stPre with ledger := mark_failed stPre.ledger "r1" err 5 } ∧
        findEntry st.ledger "r1" = some e' ∧ e'.status = Status.failed ∧
        e'.lastError = some err ∧ e'.endedAt = some 5 := by
  refine ⟨_, _, rfl, ?_⟩
  exact (run_backfill_error_contract exFetchFail exExtract exScope exBase
    { maxPages := none, chunkSize := 1000 } "r1" 5 3 exSt0).2 _ _ rfl

/-- C6: when page 1 reports hasMore true with nextCursor c1, a run with
max_pages 1 stops after persisting page 1 with the ledger still running
and cursor_next c1 (neither completed nor failed), and a second
run_backfill call with the same run_id and no max_pages reads c1 back
from the ledger, fetches from it, and completes when the provider
reports no more pages. -/
theorem run_backfill_max_pages_pause_and_resume {Item : Type}
    (fetch : QueryParams → Except String (Response Item)) (extract : ExtractFn Item)
    (scope : SapiRunScope) (base : BaseParams)
    (runId : String) (now1 now2 cs1 cs2 k1 k2 : Nat) (st0 : PState Item)
    (p1 p2 : Response Item)
    (hfresh : findEntry st0.ledger runId = none)
    (hf1 : fetch (buildQueryParams scope base none) = Except.ok p1)
    (hm1 : p1.hasMore = some true)
    (hc1 : p1.nextCursor = some "c1")
    (hf2 : fetch (buildQueryParams scope base (some "c1")) = Except.ok p2)
    (hm2 : p2.hasMore = some false) :
    ∃ st1, (run_backfill fetch extract scope base { maxPages := some 1, chunkSize := cs1 }
        runId now1 (k1 + 2) st0).2 = some (RunOutcome.ok runId st1) ∧
      (∃ e1, findEntry st1.ledger runId = some e1 ∧ e1.status = Status.running ∧
        e1.cursorNext = some "c1") ∧
      ((run_backfill fetch extract scope base { maxPages := none, chunkSize := cs2 }
          runId now2 (k2 + 1) st1).1.head?.map (fun ev => ev.cursorUsed)
        = some (some "c1")) ∧
      ∃ st2, (run_backfill fetch extract scope base { maxPages := none, chunkSize := cs2 }
          runId now2 (k2 + 1) st1).2 = some (RunOutcome.ok runId st2) ∧
      ∃ e2, findEntry st2.ledger runId = some e2 ∧ e2.status = Status.completed := by
  have hentry1 : findEntry (st0.ledger ++ [freshEntry runId scope now1]) runId
      = some (freshEntry runId scope now1) := by
    rw [findEntry_append_single st0.ledger _ _ hfresh]
    simp [freshEntry]
  have hcur1 : get_cursor_next (st0.ledger ++ [freshEntry runId scope now1]) runId
      = none := by
    unfold get_cursor_next
    rw [hentry1]
    rfl
  have hmp0 : maxPagesReached (some 1) 0 = false := rfl
  have hmp1 : maxPagesReached (some 1) 1 = true := rfl
  have hrun1 : (run_backfill fetch extract scope base { maxPages := some 1, chunkSize := cs1 }
      runId now1 (k1 + 2) st0).2 = some (RunOutcome.ok runId
        (persistPage extract
          { st0 with ledger := st0.ledger ++ [freshEntry runId scope now1] }
          runId none now1 p1 now1)) := by
    simp only [run_backfill, ensureStartedDb, hfresh]
    simp only [hcur1]
    simp only [backfillLoop, hmp0, Bool.false_eq_true, if_false, hf1, hm1, reduceCtorEq,
      hmp1, if_true]
    split <;> rfl
  have hself1 := findEntry_updateEntry_self (st0.ledger ++ [freshEntry runId scope now1])
    runId
    (fun e0 => { e0 with
      status := if p1.hasMore = some false then Status.completed else Status.running
    , endedAt := if p1.hasMore = some false then some now1 else none
    , lastError := none
    , cursorNext := p1.nextCursor
    , pagesProcessed := e0.pagesProcessed + 1
    , itemsProcessed := e0.itemsProcessed + p1.shows.length }) (fun x => rfl)
  have hentry2 : findEntry (persistPage extract
      { st0 with ledger := st0.ledger ++ [freshEntry runId scope now1] }
      runId none now1 p1 now1).ledger runId
      = some { freshEntry runId scope now1 with
          status := if p1.hasMore = some false then Status.completed else Status.running
        , endedAt := if p1.hasMore = some false then some now1 else none
        , lastError := none
        , cursorNext := p1.nextCursor
        , pagesProcessed := 0 + 1
        , itemsProcessed := 0 + p1.shows.length } := by
    show findEntry (updateEntry _ runId _) runId = _
    rw [hself1, hentry1]
    rfl
  refine ⟨persistPage extract
      { st0 with ledger := st0.ledger ++ [freshEntry runId scope now1] }
      runId none now1 p1 now1, hrun1, ⟨_, hentry2, by simp [hm1], by simp [hc1]⟩, ?_, ?_⟩
  all_goals {
    have hcur2 : get_cursor_next (persistPage extract
        { st0 with ledger := st0.ledger ++ [freshEntry runId scope now1] }
        runId none now1 p1 now1).ledger runId = some "c1" := by
      unfold get_cursor_next
      rw [hentry2]
      simp [hc1]
    have hmpn : maxPagesReached (none : Option Nat) 0 = false := rfl
    have hrun2 : run_backfill fetch extract scope base { maxPages := none, chunkSize := cs2 }
        runId now2 (k2 + 1)
        (persistPage extract
          { st0 with ledger := st0.ledger ++ [freshEntry runId scope now1] }
          runId none now1 p1 now1)
        = ([{ cursorUsed := some "c1"
            , stAtFetch := persistPage extract
                { st0 with ledger := st0.ledger ++ [freshEntry runId scope now1] }
                runId none now1 p1 now1 }],
           some (RunOutcome.ok runId (persistPage extract
             (persistPage extract
               { st0 with ledger := st0.ledger ++ [freshEntry runId scope now1] }
               runId none now1 p1 now1)
             runId (some "c1") now2 p2 now2))) := by
      simp only [run_backfill, ensureStartedDb, hentry2]
      simp only [hcur2]
      simp only [backfillLoop, hmpn, Bool.false_eq_true, if_false, hf2, hm2, if_true]
    first
    | (rw [hrun2]; rfl)
    | (refine ⟨_, by rw [hrun2], ?_⟩
       have hself2 := findEntry_updateEntry_self (persistPage extract
          { st0 with ledger := st0.ledger ++ [freshEntry runId scope now1] }
          runId none now1 p1 now1).ledger runId
          (fun e0 => { e0 with
            status := if p2.hasMore = some false then Status.completed else Status.running
          , endedAt := if p2.hasMore = some false then some now2 else none
          , lastError := none
          , cursorNext := p2.nextCursor
          , pagesProcessed := e0.pagesProcessed + 1
          , itemsProcessed := e0.itemsProcessed + p2.shows.length }) (fun x => rfl)
       have hentry3 : findEntry (persistPage extract (persistPage extract
           { st0 with ledger := st0.ledger ++ [freshEntry runId scope now1] }
           runId none now1 p1 now1) runId (some "c1") now2 p2 now2).ledger runId
           = some { { freshEntry runId scope now1 with
               status := if p1.hasMore = some false then Status.completed else Status.running
             , endedAt := if p1.hasMore = some false then some now1 else none
             , lastError := none
             , cursorNext := p1.nextCursor
             , pagesProcessed := 0 + 1
             , itemsProcessed := 0 + p1.shows.length } with
               status := if p2.hasMore = some false then Status.completed else Status.running
             , endedAt := if p2.hasMore = some false then some now2 else none
             , lastError := none
             , cursorNext := p2.nextCursor
             , pagesProcessed := 0 + 1 + 1
             , itemsProcessed := 0 + p1.shows.length + p2.shows.length } := by
         show findEntry (updateEntry _ runId _) runId = _
         rw [hself2, hentry2]
         rfl
       exact ⟨_, hentry3, by simp [hm2]⟩)
  }

/-- C6 witness: the two-page provider of the spec scenario, max_pages 1
then a resumed run. -/
theorem run_backfill_max_pages_pause_and_resume_witness :
    ∃ st1, (run_backfill exFetchTwoPages exExtract exScope exBase
        { maxPages := some 1, chunkSize := 1000 } "r1" 7 (1 + 2) exSt0).2
        = some (RunOutcome.ok "r1" st1) ∧
      (∃ e1, findEntry st1.ledger "r1" = some e1 ∧ e1.status = Status.running ∧
        e1.cursorNext = some "c1") ∧
      ((run_backfill exFetchTwoPages exExtract exScope exBase
          { maxPages := none, chunkSize := 1000 } "r1" 8 (1 + 1) st1).1.head?.map
        (fun ev => ev.cursorUsed) = some (some "c1")) ∧
      ∃ st2, (run_backfill exFetchTwoPages exExtract exScope exBase
          { maxPages := none, chunkSize := 1000 } "r1" 8 (1 + 1) st1).2
          = some (RunOutcome.ok "r1" st2) ∧
      ∃ e2, findEntry st2.ledger "r1" = some e2 ∧ e2.status = Status.completed :=
  run_backfill_max_pages_pause_and_resume exFetchTwoPages exExtract exScope exBase
    "r1" 7 8 1000 1000 1 1 exSt0
    { shows := [1, 2], hasMore := some true, nextCursor := some "c1" }
    { shows := [3], hasMore := some false, nextCursor := none }
    rfl rfl rfl rfl rfl rfl
